import Mathlib

/-!
# Verification of the backups-reporter inventory aggregation engine

Shallow embedding of `src/backups_reporter.py`.

Modelling conventions:
* `datetime` values are modelled as integers (e.g. epoch seconds); the only
  operations the program performs on them are comparison (for sorting) and
  formatting, so any linearly ordered carrier is faithful.
* Python's `list.sort(key=lambda x: x.timestamp, reverse=True)` is a *stable*
  descending sort (CPython documents that `reverse=True` preserves stability).
  We model it with `List.insertionSort` over the relation `tsGe` and prove the
  stability characterisation (`filter_timestamp_sortDesc`) that pins the model
  to "stable sort, ties in original order".
* Effectful library calls (subprocess `borg mount`, `Path.iterdir`, `os.walk`,
  `boto3` pagination, `requests.Session.post`, SMTP delivery, the system
  clock) are modelled by explicit outcome data carried in the configuration /
  environment records, mirroring exactly how each outcome flows through the
  Python control flow (which exceptions are caught where, and what each
  `except` clause returns).
-/

/-- The `BackupEntry` record — the uniform record produced by every backend
(dataclass `BackupEntry` in the source: `source`, `name`, `timestamp`,
`size : Optional[int]`, `type`). -/
structure BackupEntry where
  source : String
  name : String
  timestamp : Int
  size : Option Nat := none
  type : String := "unknown"
deriving DecidableEq, Repr

/-- The comparison used by every `entries.sort(key=lambda x: x.timestamp,
reverse=True)` call: `a` may come before `b` iff `b.timestamp ≤ a.timestamp`
(descending order). -/
def tsGe (a b : BackupEntry) : Prop := b.timestamp ≤ a.timestamp

instance : DecidableRel tsGe := fun a b => Int.decLe b.timestamp a.timestamp

instance : IsTotal BackupEntry tsGe := ⟨fun a b => le_total b.timestamp a.timestamp⟩

instance : IsTrans BackupEntry tsGe := ⟨fun _ _ _ hab hbc => le_trans hbc hab⟩

/-- Model of Python's `entries.sort(key=lambda x: x.timestamp, reverse=True)`:
a stable sort into descending timestamp order.  `List.insertionSort` with
`tsGe` is such a sort: `orderedInsert` places an element *before* the first
element whose timestamp is `≤` its own, so among equal timestamps the
original (left-to-right) order is preserved — proved below as
`filter_timestamp_sortDesc`. -/
def sortDesc (l : List BackupEntry) : List BackupEntry := List.insertionSort tsGe l

theorem sorted_sortDesc (l : List BackupEntry) : List.Sorted tsGe (sortDesc l) :=
  List.sorted_insertionSort tsGe l

theorem perm_sortDesc (l : List BackupEntry) : List.Perm (sortDesc l) l :=
  List.perm_insertionSort tsGe l

theorem length_sortDesc (l : List BackupEntry) : (sortDesc l).length = l.length :=
  (perm_sortDesc l).length_eq

theorem mem_sortDesc {e : BackupEntry} {l : List BackupEntry} :
    e ∈ sortDesc l ↔ e ∈ l :=
  (perm_sortDesc l).mem_iff

/-- Predicate "this entry carries timestamp `t`", as a Boolean for `filter`. -/
def hasTs (t : Int) (e : BackupEntry) : Bool := decide (e.timestamp = t)

theorem filter_timestamp_orderedInsert (t : Int) (a : BackupEntry) (l : List BackupEntry) :
    (List.orderedInsert tsGe a l).filter (hasTs t) =
      if a.timestamp = t then a :: l.filter (hasTs t) else l.filter (hasTs t) := by
  induction l with
  | nil =>
      simp only [List.orderedInsert_nil]
      by_cases h : a.timestamp = t <;>
        simp [List.filter_cons, List.filter_nil, hasTs, h]
  | cons b l ih =>
      simp only [List.orderedInsert]
      by_cases hr : tsGe a b
      · rw [if_pos hr]
        by_cases h : a.timestamp = t <;> simp [List.filter_cons, hasTs, h]
      · rw [if_neg hr]
        by_cases h : a.timestamp = t
        · -- the skipped element `b` has strictly larger timestamp, so it does
          -- not carry timestamp `t` and filtering commutes with the skip
          have hb : b.timestamp ≠ t := by
            intro hbt
            exact hr (by simp [tsGe, hbt, h])
          simp [List.filter_cons, hasTs, hb, h, ih]
        · simp [List.filter_cons, hasTs, h, ih]

/-- Stability of the model sort: among entries with one fixed timestamp the
sorted list keeps exactly the input's relative order.  Together with
`sorted_sortDesc` and `perm_sortDesc` this uniquely characterises the stable
descending sort performed by Python's `list.sort(..., reverse=True)`. -/
theorem filter_timestamp_sortDesc (t : Int) (l : List BackupEntry) :
    (sortDesc l).filter (hasTs t) = l.filter (hasTs t) := by
  induction l with
  | nil => rfl
  | cons a l ih =>
      show (List.orderedInsert tsGe a (sortDesc l)).filter (hasTs t) = _
      rw [filter_timestamp_orderedInsert]
      by_cases h : a.timestamp = t
      · simp [List.filter_cons, hasTs, h, ih]
      · simp [List.filter_cons, hasTs, h, ih]

/-! ## SizeScanner — `BorgRepository._calculate_directory_size` -/

/-- One file on disk as seen by the scanner: its size, and whether
`os.path.getsize` can access it (`accessible = false` models a file for which
`getsize` raises `OSError`/`PermissionError`). -/
structure FileRec where
  size : Nat
  accessible : Bool
deriving DecidableEq, Repr

/-- A directory tree (the argument of `_calculate_directory_size`): the files
directly in the directory plus its subdirectories. -/
inductive DirTree where
  | node (files : List FileRec) (subdirs : List DirTree) : DirTree

/-- Model of `os.walk(directory_path)`: the complete top-down enumeration of all files
under the tree (for each visited directory, its `files`; directory order is
the tree order). -/
def walkFiles : DirTree → List FileRec
  | .node fs ds => fs ++ (ds.attach.map (fun d => walkFiles d.1)).flatten
decreasing_by
  have h1 : sizeOf d.1 < sizeOf ds := List.sizeOf_lt_of_mem d.2
  simp only [DirTree.node.sizeOf_spec]
  omega

/-- The body of the scanner's file loop: `os.path.getsize` succeeds → add the
size; it raises (`except (OSError, PermissionError)`) → `continue`, leaving
the accumulator untouched. -/
def scanStep (acc : Nat) (f : FileRec) : Nat :=
  if f.accessible then acc + f.size else acc

/-- Embedding of `BorgRepository._calculate_directory_size`: fold the scanner's file loop
over everything `os.walk` yields, starting from `total_size = 0`.  (The
`file_count` / progress-logging bookkeeping of the source does not affect the
returned total; the outer `except` never fires in this model because the
per-file handler already absorbs every file error.) -/
def calculate_directory_size (t : DirTree) : Nat :=
  (walkFiles t).foldl scanStep 0

/-- The sizes of the accessible files of the tree (spec side: "the N
accessible files' sizes"). -/
def accessibleSizes (t : DirTree) : List Nat :=
  ((walkFiles t).filter (fun f => f.accessible)).map (fun f => f.size)

theorem foldl_scanStep (n : Nat) (fs : List FileRec) :
    fs.foldl scanStep n = n + ((fs.filter (fun f => f.accessible)).map (fun f => f.size)).sum := by
  induction fs generalizing n with
  | nil => simp
  | cons f fs ih =>
      by_cases h : f.accessible <;>
        simp [List.foldl_cons, List.filter_cons, scanStep, h, ih, Nat.add_assoc]

/-- C8: The recursive size scan never fails (it is a total function returning
a byte count), and its result is exactly the sum of the accessible files'
sizes: per-file access errors are skipped without aborting the scan or
distorting the remaining total. -/
theorem calculate_directory_size_eq_sum_accessible (t : DirTree) :
    calculate_directory_size t = (accessibleSizes t).sum := by
  simpa [calculate_directory_size, accessibleSizes] using
    foldl_scanStep 0 (walkFiles t)

/-! ## ArchiveRepositoryAdapter — `BorgRepository` -/

/-- How the `borg mount` subprocess call in `BorgRepository.mount` ends:
return code 0, non-zero return code, `subprocess.TimeoutExpired`, or any
other exception (e.g. resource allocation failure).  `mount()` returns `True`
only in the first case and `False` (after logging) in the others. -/
inductive MountOutcome where
  | success
  | processFailure
  | timeout
  | exception
deriving DecidableEq, Repr

/-- One result of `Path(self.mount_point).iterdir()`: a directory entry with
its name, whether it is a directory, its `stat().st_mtime` (as UTC instant),
and — when it is a directory — its contents (consumed by the size scanner). -/
structure DirItem where
  name : String
  isDir : Bool
  mtime : Int
  tree : DirTree

/-- A configured Borg repository together with the outcomes of the effectful
calls made for it during one run.  `name` and `calculate_sizes` come from the
configuration (`calculate_sizes` defaults to `True`); `mountOutcome` is the
fate of the `borg mount` subprocess; `items` is what `iterdir()` yields once
mounted; `iterError` models an exception raised while listing (from
`iterdir`/`stat`), which `list_archives` catches and turns into `[]`.
The connection fields of the source (`repository`, `passphrase`, SSH options)
only influence *which* of these outcomes occurs, so they are absorbed into
the outcome fields. -/
structure BorgSpec where
  name : String
  calculate_sizes : Bool := true
  mountOutcome : MountOutcome
  items : List DirItem := []
  iterError : Bool := false

/-- Embedding of `BorgRepository.mount`: `True` iff the subprocess returned 0; every
failure mode (non-zero exit, timeout, exception) is logged and yields
`False`. -/
def BorgSpec.mount (b : BorgSpec) : Bool :=
  match b.mountOutcome with
  | .success => true
  | .processFailure => false
  | .timeout => false
  | .exception => false

/-- The `BackupEntry` built for one archive directory in
`BorgRepository.list_archives`. -/
def borgEntry (b : BorgSpec) (it : DirItem) : BackupEntry :=
  { source := "borg:" ++ b.name
    name := it.name
    timestamp := it.mtime
    size := if b.calculate_sizes then some (calculate_directory_size it.tree) else none
    type := "borg_archive" }

/-- Embedding of `BorgRepository.list_archives`: returns `[]` when there is no mount
point; otherwise iterates `iterdir()`, keeps directories, builds one entry
per archive (computing its size only when `calculate_sizes` is set), sorts
descending by timestamp and truncates to `limit`.  Any exception while
listing is caught and the partial list is discarded: the `except` clause
returns `[]`. -/
def list_archives (b : BorgSpec) (mounted : Bool) (limit : Nat) : List BackupEntry :=
  if !mounted then []
  else if b.iterError then []
  else
    let entries := (b.items.filter (fun it => it.isDir)).map (borgEntry b)
    (sortDesc entries).take limit

/-! ## ObjectStoreAdapter — `S3Bucket` -/

/-- One object returned by the `list_objects_v2` paginator: key,
last-modified instant, size in bytes. -/
structure S3Obj where
  key : String
  lastModified : Int
  size : Nat
deriving DecidableEq, Repr

/-- A configured S3 bucket together with the outcome of the paginated listing
for this run: the pages of objects the paginator yields (a page without a
`Contents` key is an empty page), or `listError = true` when the listing
raises (`ClientError` or any other exception) — `list_objects` catches both
and returns `[]`, discarding any partially accumulated entries.  The
connection fields of the source (`bucket`, `region`, credentials, endpoint)
only determine which of these outcomes occurs. -/
structure S3Spec where
  name : String
  pages : List (List S3Obj) := []
  listError : Bool := false

/-- The `BackupEntry` built for one object in `S3Bucket.list_objects`. -/
def s3Entry (s : S3Spec) (obj : S3Obj) : BackupEntry :=
  { source := "s3:" ++ s.name
    name := obj.key
    timestamp := obj.lastModified
    size := some obj.size
    type := "s3_object" }

/-- Embedding of `S3Bucket.list_objects`: page through all objects, one entry per object,
sort descending by timestamp, truncate to `limit`; on `ClientError` or any
other exception the `except` clauses log and return `[]`. -/
def list_objects (s : S3Spec) (limit : Nat) : List BackupEntry :=
  if s.listError then []
  else
    let entries := s.pages.flatMap (fun page => page.map (s3Entry s))
    (sortDesc entries).take limit

theorem sorted_take_sortDesc (l : List BackupEntry) (n : Nat) :
    List.Sorted tsGe ((sortDesc l).take n) :=
  List.Pairwise.sublist (List.take_sublist n (sortDesc l)) (sorted_sortDesc l)

/-- C6: every single adapter call — `BorgRepository.list_archives(limit)` or
`S3Bucket.list_objects(limit)` — returns a sequence sorted descending by
timestamp of length at most `limit`, before any merge step (in particular an
adapter holding 15 artifacts with limit 10 returns at most 10 entries). -/
theorem adapter_listings_sorted_and_bounded :
    (∀ (b : BorgSpec) (mounted : Bool) (limit : Nat),
        List.Sorted tsGe (list_archives b mounted limit) ∧
          (list_archives b mounted limit).length ≤ limit) ∧
      ∀ (s : S3Spec) (limit : Nat),
        List.Sorted tsGe (list_objects s limit) ∧
          (list_objects s limit).length ≤ limit := by
  constructor
  · intro b mounted limit
    unfold list_archives
    by_cases hm : mounted <;> by_cases he : b.iterError <;>
      simp [hm, he, sorted_take_sortDesc, List.length_take_le]
  · intro s limit
    unfold list_objects
    by_cases he : s.listError <;>
      simp [he, sorted_take_sortDesc, List.length_take_le]

theorem mem_list_archives {e : BackupEntry} {b : BorgSpec} {mounted : Bool} {limit : Nat}
    (h : e ∈ list_archives b mounted limit) :
    ∃ it, e = borgEntry b it := by
  unfold list_archives at h
  by_cases hm : mounted
  · by_cases he : b.iterError
    · simp [hm, he] at h
    · simp only [hm, he, Bool.not_true, if_neg, if_false, Bool.false_eq_true] at h
      have h2 := mem_sortDesc.mp (List.mem_of_mem_take h)
      rcases List.mem_map.mp h2 with ⟨it, _, hit⟩
      exact ⟨it, hit.symm⟩
  · simp [hm] at h

theorem mem_list_objects {e : BackupEntry} {s : S3Spec} {limit : Nat}
    (h : e ∈ list_objects s limit) :
    ∃ obj, e = s3Entry s obj := by
  unfold list_objects at h
  by_cases he : s.listError
  · simp [he] at h
  · simp only [he, if_false, Bool.false_eq_true] at h
    have h2 := mem_sortDesc.mp (List.mem_of_mem_take h)
    rcases List.mem_flatMap.mp h2 with ⟨page, _, hpage⟩
    rcases List.mem_map.mp hpage with ⟨obj, _, hobj⟩
    exact ⟨obj, hobj.symm⟩

theorem type_of_mem_list_archives {e : BackupEntry} {b : BorgSpec} {mounted : Bool}
    {limit : Nat} (h : e ∈ list_archives b mounted limit) : e.type = "borg_archive" := by
  rcases mem_list_archives h with ⟨it, rfl⟩
  rfl

theorem type_of_mem_list_objects {e : BackupEntry} {s : S3Spec} {limit : Nat}
    (h : e ∈ list_objects s limit) : e.type = "s3_object" := by
  rcases mem_list_objects h with ⟨obj, rfl⟩
  rfl

/-! ## ReportRenderer — `format_size` (nested in `_generate_html_report`)

`format_size` divides a byte count by `1024.0` repeatedly, so the value being
formatted is a Python float.  We model the value as a rational: for integer
byte counts below 2^53 every division by 1024 (a power of two) is exact in
binary floating point, so the rational model coincides with the float
semantics there.  Python's `f-string` `:.1f` formatting rounds the value to
one decimal digit, ties to even, which `roundHalfEven` reproduces. -/

/-- Round to the nearest integer, ties to even (the rounding used by
`str.format`/`f"{x:.1f}"` on the exact value). -/
def roundHalfEven (q : ℚ) : Int :=
  let f := ⌊q⌋
  if q - f < 1/2 then f
  else if 1/2 < q - f then f + 1
  else if f % 2 = 0 then f else f + 1

/-- Python's `f"{size:.1f}"` for a non-negative value: one decimal digit. -/
def fmt1 (q : ℚ) : String :=
  let n := roundHalfEven (q * 10)
  toString (n / 10) ++ "." ++ toString (n % 10)

/-- The `for unit in ['B', 'KB', 'MB', 'GB', 'TB']` loop of `format_size`:
render at the first unit where the value has dropped below 1024, dividing by
1024 per step; when the loop runs out of units, render as `PB`. -/
def format_size_go (q : ℚ) : List String → String
  | [] => fmt1 q ++ " PB"
  | u :: us => if q < 1024 then fmt1 q ++ " " ++ u else format_size_go (q / 1024) us

/-- The `format_size` helper nested in `EmailReporter._generate_html_report`: `None` renders
as the unavailable marker, a present byte count goes through the unit
escalation loop. -/
def format_size : Option Nat → String
  | none => "N/A"
  | some size => format_size_go (size : ℚ) ["B", "KB", "MB", "GB", "TB"]

/-- The index of the unit `format_size` ends up using for a present byte
count `n` (0 = B, 1 = KB, …, 5 = PB): the number of divisions performed by
the loop.  The thresholds are the powers 1024¹…1024⁵. -/
def unitOf (n : Nat) : Nat :=
  if n < 1024 then 0
  else if n < 1048576 then 1
  else if n < 1073741824 then 2
  else if n < 1099511627776 then 3
  else if n < 1125899906842624 then 4
  else 5

/-- The unit names in escalation order, as indexed by `unitOf`. -/
def unitName : Nat → String
  | 0 => "B"
  | 1 => "KB"
  | 2 => "MB"
  | 3 => "GB"
  | 4 => "TB"
  | _ => "PB"

/-- Unfolding of the unit-escalation loop: for a present size `n` the result
is the value divided by `1024 ^ unitOf n`, rendered with the unit of index
`unitOf n`; the thresholds between units are exactly the powers of 1024. -/
theorem format_size_some_eq (n : Nat) :
    format_size (some n) =
      fmt1 ((n : ℚ) / 1024 ^ unitOf n) ++ " " ++ unitName (unitOf n) := by
  have hp : (0:ℚ) < 1024 := by norm_num
  have e1 : (n:ℚ) / 1024 ^ 1 = (n:ℚ) / 1024 := by norm_num
  have e2 : (n:ℚ) / 1024 ^ 2 = (n:ℚ) / 1024 / 1024 := by rw [div_div]; norm_num
  have e3 : (n:ℚ) / 1024 ^ 3 = (n:ℚ) / 1024 / 1024 / 1024 := by
    rw [div_div, div_div]; norm_num
  have e4 : (n:ℚ) / 1024 ^ 4 = (n:ℚ) / 1024 / 1024 / 1024 / 1024 := by
    rw [div_div, div_div, div_div]; norm_num
  have e5 : (n:ℚ) / 1024 ^ 5 = (n:ℚ) / 1024 / 1024 / 1024 / 1024 / 1024 := by
    rw [div_div, div_div, div_div, div_div]; norm_num
  have c0 : ((n:ℚ) < 1024) ↔ n < 1024 := by exact_mod_cast Iff.rfl
  have c1 : ((n:ℚ)/1024 < 1024) ↔ n < 1048576 := by
    rw [div_lt_iff₀ hp]; norm_num
  have c2 : ((n:ℚ)/1024/1024 < 1024) ↔ n < 1073741824 := by
    rw [div_lt_iff₀ hp, div_lt_iff₀ hp]; norm_num
  have c3 : ((n:ℚ)/1024/1024/1024 < 1024) ↔ n < 1099511627776 := by
    rw [div_lt_iff₀ hp, div_lt_iff₀ hp, div_lt_iff₀ hp]; norm_num
  have c4 : ((n:ℚ)/1024/1024/1024/1024 < 1024) ↔ n < 1125899906842624 := by
    rw [div_lt_iff₀ hp, div_lt_iff₀ hp, div_lt_iff₀ hp, div_lt_iff₀ hp]; norm_num
  by_cases h0 : n < 1024
  · simp [format_size, format_size_go, unitOf, unitName, h0, c0.mpr h0]
  · by_cases h1 : n < 1048576
    · simp [format_size, format_size_go, unitOf, unitName, h0, h1, e1,
        (not_iff_not.mpr c0).mpr h0, c1.mpr h1]
    · by_cases h2 : n < 1073741824
      · simp [format_size, format_size_go, unitOf, unitName, h0, h1, h2, e2,
          (not_iff_not.mpr c0).mpr h0, (not_iff_not.mpr c1).mpr h1, c2.mpr h2]
      · by_cases h3 : n < 1099511627776
        · simp [format_size, format_size_go, unitOf, unitName, h0, h1, h2, h3, e3,
            (not_iff_not.mpr c0).mpr h0, (not_iff_not.mpr c1).mpr h1,
            (not_iff_not.mpr c2).mpr h2, c3.mpr h3]
        · by_cases h4 : n < 1125899906842624
          · simp [format_size, format_size_go, unitOf, unitName, h0, h1, h2, h3, h4, e4,
              (not_iff_not.mpr c0).mpr h0, (not_iff_not.mpr c1).mpr h1,
              (not_iff_not.mpr c2).mpr h2, (not_iff_not.mpr c3).mpr h3, c4.mpr h4]
          · simp [format_size, format_size_go, unitOf, unitName, h0, h1, h2, h3, h4, e5,
              (not_iff_not.mpr c0).mpr h0, (not_iff_not.mpr c1).mpr h1,
              (not_iff_not.mpr c2).mpr h2, (not_iff_not.mpr c3).mpr h3,
              (not_iff_not.mpr c4).mpr h4]
            rw [String.append_assoc]
            rfl

/-- C4: `format_size` renders an absent (`None`) size as the unavailable
marker `"N/A"` and never as a numeric value; for present sizes it escalates
units at 1024-steps through B/KB/MB/GB/TB/PB monotonically (the chosen unit
index `unitOf` is monotone in the byte count and the value is scaled by
`1024 ^ unitOf n`); in particular 1023 renders as `"1023.0 B"`, 1024 as
`"1.0 KB"`, and 1048576 as `"1.0 MB"`. -/
theorem format_size_spec :
    format_size none = "N/A" ∧
      format_size (some 1023) = "1023.0 B" ∧
      format_size (some 1024) = "1.0 KB" ∧
      format_size (some 1048576) = "1.0 MB" ∧
      (∀ n : Nat, format_size (some n) =
        fmt1 ((n : ℚ) / 1024 ^ unitOf n) ++ " " ++ unitName (unitOf n)) ∧
      ∀ a b : Nat, a ≤ b → unitOf a ≤ unitOf b := by
  refine ⟨rfl, ?_, ?_, ?_, format_size_some_eq, ?_⟩
  · rw [format_size_some_eq]
    have hu : unitOf 1023 = 0 := by norm_num [unitOf]
    rw [hu]
    norm_num [fmt1, roundHalfEven, unitName]
    rfl
  · rw [format_size_some_eq]
    have hu : unitOf 1024 = 1 := by norm_num [unitOf]
    rw [hu]
    norm_num [fmt1, roundHalfEven, unitName]
    rfl
  · rw [format_size_some_eq]
    have hu : unitOf 1048576 = 2 := by norm_num [unitOf]
    rw [hu]
    norm_num [fmt1, roundHalfEven, unitName]
    rfl
  · intro a b hab
    unfold unitOf
    split_ifs <;> omega

/-- Witness for `format_size_spec`: the monotonicity conjunct applied at the
concrete pair 1023 ≤ 1048576. -/
theorem format_size_spec_witness :
    1023 ≤ 1048576 ∧ unitOf 1023 ≤ unitOf 1048576 :=
  ⟨by norm_num, format_size_spec.2.2.2.2.2 1023 1048576 (by norm_num)⟩

/-! ## InventoryAggregator — `BackupsReporter.run` -/

/-- Observable actions of one run, in program order.  `emailAttempt` carries
the entry sequence handed to `EmailReporter.send_report` (and thus to the
renderer) together with whether delivery succeeded; `unmountAttempt` is one
execution of `repo.unmount()`. -/
inductive Event where
  | pingEv (status : String)
  | mountAttempt (name : String) (ok : Bool)
  | emailAttempt (entries : List BackupEntry) (ok : Bool)
  | unmountAttempt (name : String)
deriving DecidableEq, Repr

/-- The run configuration plus the outcome of every effectful call of one
run: the YAML keys `borg_repositories`, `s3_buckets`, `entries_per_source`
(`config.get(..., 10)`), `max_total_entries` (`config.get(..., 100)`),
whether an `email` section and a `webhooks` section are configured, and
whether `EmailReporter.send_report` succeeds (`emailOk = false` models it
raising, which `run` does not catch locally). -/
structure RunConfig where
  borg_repositories : List BorgSpec
  s3_buckets : List S3Spec
  entries_per_source : Option Nat := none
  max_total_entries : Option Nat := none
  emailConfigured : Bool := false
  emailOk : Bool := true
  webhooksConfigured : Bool := false

/-- One iteration of the Borg loop in `run`: `repo.mount()` succeeds → the
repo's listing is appended; it fails → nothing is appended (and the repo is
not recorded for unmounting). -/
def borgContribution (lim : Nat) (b : BorgSpec) : List BackupEntry :=
  if b.mount then list_archives b true lim else []

/-- The concatenation of all per-source listings accumulated in `entries`
before the global sort: all Borg repositories first (in configuration
order), then all S3 buckets. -/
def concatEntries (cfg : RunConfig) : List BackupEntry :=
  cfg.borg_repositories.flatMap (borgContribution (cfg.entries_per_source.getD 10)) ++
    cfg.s3_buckets.flatMap (fun s => list_objects s (cfg.entries_per_source.getD 10))

/-- The entry sequence after the global stable descending sort and the
`entries[:max_entries]` truncation — exactly what `run` hands to
`EmailReporter.send_report`. -/
def aggregateEntries (cfg : RunConfig) : List BackupEntry :=
  (sortDesc (concatEntries cfg)).take (cfg.max_total_entries.getD 100)

/-- Embedding of `BackupsReporter.run`.  Returns the result of the `try` block (`.ok`
with the aggregated entries, or `.error` when the uncaught exception from
`send_report` propagates out of `run` after the failure ping) together with
the trace of observable events in program order.  Faithful control flow:
mounting/listing failures are absorbed inside the loop; the unmount loop
runs *after* the email step and only on the non-raising path — there is no
`finally` in the source. -/
def run (cfg : RunConfig) : Except String (List BackupEntry) × List Event :=
  let startEvs := if cfg.webhooksConfigured then [Event.pingEv "start"] else []
  let mountEvs := cfg.borg_repositories.map (fun b => Event.mountAttempt b.name b.mount)
  let es := aggregateEntries cfg
  if cfg.emailConfigured && !cfg.emailOk then
    (Except.error "Failed to send email report",
      startEvs ++ mountEvs ++ [Event.emailAttempt es false] ++
        (if cfg.webhooksConfigured then [Event.pingEv "fail"] else []))
  else
    (Except.ok es,
      startEvs ++ mountEvs ++
        (if cfg.emailConfigured then [Event.emailAttempt es true] else []) ++
        (cfg.borg_repositories.filter (fun b => b.mount)).map
          (fun b => Event.unmountAttempt b.name) ++
        (if cfg.webhooksConfigured then [Event.pingEv "success"] else []))

deriving instance DecidableEq for Except

/-- A run in which one Borg repository mounts successfully, an email section
is configured, and SMTP delivery fails (`send_report` raises). -/
def cfgEmailFail : RunConfig :=
  { borg_repositories := [{ name := "repo1", mountOutcome := .success }]
    s3_buckets := []
    emailConfigured := true
    emailOk := false
    webhooksConfigured := true }

/-- C1 (divergence witness): with a successfully mounted repository and a
failing email delivery, `run` raises without ever attempting
`repo.unmount()` — the cleanup loop sits after `send_report` and there is no
`finally`, so the mounted backend receives zero detach attempts on this exit
path, not exactly one. -/
theorem run_skips_unmount_on_delivery_failure :
    Event.mountAttempt "repo1" true ∈ (run cfgEmailFail).2 ∧
      (run cfgEmailFail).2.count (Event.unmountAttempt "repo1") = 0 ∧
      (run cfgEmailFail).1 = Except.error "Failed to send email report" := by
  decide

/-- C2: the aggregated output of every run is sorted descending by timestamp,
has length at most `max_total_entries` (default 100), and is exactly the
sequence handed to the renderer/email step. -/
theorem aggregated_output_sorted_and_bounded (cfg : RunConfig) :
    List.Sorted tsGe (aggregateEntries cfg) ∧
      (aggregateEntries cfg).length ≤ cfg.max_total_entries.getD 100 ∧
      ∀ es ok, Event.emailAttempt es ok ∈ (run cfg).2 → es = aggregateEntries cfg := by
  refine ⟨sorted_take_sortDesc _ _, List.length_take_le _ _, ?_⟩
  intro es ok
  unfold run
  by_cases hw : cfg.webhooksConfigured <;>
    by_cases he : cfg.emailConfigured <;>
      by_cases hk : cfg.emailOk <;>
        simp [hw, he, hk] <;>
          exact fun h _ => h

/-- A run with email configured and delivering, holding one S3 object. -/
def cfgOneObject : RunConfig :=
  { borg_repositories := []
    s3_buckets := [{ name := "b", pages := [[{ key := "k", lastModified := 5, size := 3 }]] }]
    emailConfigured := true }

/-- Witness for `aggregated_output_sorted_and_bounded` at `cfgOneObject`:
the email step receives exactly the aggregated sequence. -/
theorem aggregated_output_sorted_and_bounded_witness :
    [{ source := "s3:b", name := "k", timestamp := 5, size := some 3,
        type := "s3_object" : BackupEntry }] = aggregateEntries cfgOneObject ∧
      List.Sorted tsGe (aggregateEntries cfgOneObject) :=
  ⟨(aggregated_output_sorted_and_bounded cfgOneObject).2.2 _ true (by decide),
    (aggregated_output_sorted_and_bounded cfgOneObject).1⟩

/-- C3: a per-backend error — a failed attach (non-zero exit, timeout, or
exception) or a listing failure — makes that backend contribute zero entries
(never a partial subset: the `except` clause discards any partial list), and
the run's outcome is the same as if the backend were absent: the remaining
backends are still processed. -/
theorem failed_backend_contributes_nothing :
    (∀ (s : S3Spec) (lim : Nat), s.listError = true → list_objects s lim = []) ∧
      ∀ (cfg : RunConfig) (pre post : List BorgSpec) (b : BorgSpec),
        cfg.borg_repositories = pre ++ b :: post →
        (b.mountOutcome = MountOutcome.processFailure ∨
          b.mountOutcome = MountOutcome.timeout ∨
          b.mountOutcome = MountOutcome.exception ∨ b.iterError = true) →
        borgContribution (cfg.entries_per_source.getD 10) b = [] ∧
          (run cfg).1 = (run { cfg with borg_repositories := pre ++ post }).1 := by
  constructor
  · intro s lim hs
    simp [list_objects, hs]
  · intro cfg pre post b hrepos hfail
    have hc : borgContribution (cfg.entries_per_source.getD 10) b = [] := by
      rcases hfail with h | h | h | h
      · simp [borgContribution, BorgSpec.mount, h]
      · simp [borgContribution, BorgSpec.mount, h]
      · simp [borgContribution, BorgSpec.mount, h]
      · by_cases hm : b.mount
        · simp [borgContribution, hm, list_archives, h]
        · simp [borgContribution, hm]
    refine ⟨hc, ?_⟩
    have hagg : aggregateEntries cfg =
        aggregateEntries { cfg with borg_repositories := pre ++ post } := by
      unfold aggregateEntries concatEntries
      rw [hrepos]
      simp [List.flatMap_append, hc]
    unfold run
    by_cases he : cfg.emailConfigured && !cfg.emailOk <;> simp [he, hagg]

/-- A run with one working Borg repository, one whose mount times out, and
the rest of the pipeline trivial. -/
def cfgOneBadMount : RunConfig :=
  { borg_repositories :=
      [{ name := "good", mountOutcome := .success, calculate_sizes := false,
          items := [{ name := "arch", isDir := true, mtime := 7, tree := .node [] [] }] },
        { name := "bad", mountOutcome := .timeout }]
    s3_buckets := [] }

/-- The same run without the failing repository. -/
def cfgOneBadMountRemoved : RunConfig :=
  { borg_repositories :=
      [{ name := "good", mountOutcome := .success, calculate_sizes := false,
          items := [{ name := "arch", isDir := true, mtime := 7, tree := .node [] [] }] }]
    s3_buckets := [] }

/-- Witness for `failed_backend_contributes_nothing`: the timing-out
repository contributes nothing and its removal leaves the run's result
unchanged. -/
theorem failed_backend_contributes_nothing_witness :
    borgContribution 10 { name := "bad", mountOutcome := .timeout } = [] ∧
      (run cfgOneBadMount).1 = (run cfgOneBadMountRemoved).1 :=
  ⟨(failed_backend_contributes_nothing.2 cfgOneBadMount
      [{ name := "good", mountOutcome := .success, calculate_sizes := false,
          items := [{ name := "arch", isDir := true, mtime := 7, tree := .node [] [] }] }]
      [] { name := "bad", mountOutcome := .timeout } rfl (Or.inr (Or.inl rfl))).1,
    ((failed_backend_contributes_nothing.2 cfgOneBadMount
      [{ name := "good", mountOutcome := .success, calculate_sizes := false,
          items := [{ name := "arch", isDir := true, mtime := 7, tree := .node [] [] }] }]
      [] { name := "bad", mountOutcome := .timeout } rfl (Or.inr (Or.inl rfl))).2)⟩

/-- C5: when the concatenation of per-source listings contains exactly two
(distinct) entries with a given timestamp and both survive the total-limit
cut, the aggregated output contains both, in the same relative order as the
concatenation: the global sort is stable, so ties keep their
source-enumeration order. -/
theorem tie_order_preserved (cfg : RunConfig) (t : Int) (e1 e2 : BackupEntry)
    (hconcat : (concatEntries cfg).filter (hasTs t) = [e1, e2])
    (hne : e1 ≠ e2)
    (_h1 : e1 ∈ aggregateEntries cfg)
    (h2 : e2 ∈ aggregateEntries cfg) :
    (aggregateEntries cfg).filter (hasTs t) = [e1, e2] := by
  have hS : (sortDesc (concatEntries cfg)).filter (hasTs t) = [e1, e2] := by
    rw [filter_timestamp_sortDesc]
    exact hconcat
  set n := cfg.max_total_entries.getD 100 with hn
  have hsplit : sortDesc (concatEntries cfg) =
      (sortDesc (concatEntries cfg)).take n ++ (sortDesc (concatEntries cfg)).drop n :=
    (List.take_append_drop n _).symm
  have hAB : ((sortDesc (concatEntries cfg)).take n).filter (hasTs t) ++
      ((sortDesc (concatEntries cfg)).drop n).filter (hasTs t) = [e1, e2] := by
    rw [← List.filter_append, ← hsplit]
    exact hS
  have hp2 : hasTs t e2 = true := by
    have : e2 ∈ (sortDesc (concatEntries cfg)).filter (hasTs t) := by
      rw [hS]; simp
    exact List.of_mem_filter this
  have hmem2 : e2 ∈ ((sortDesc (concatEntries cfg)).take n).filter (hasTs t) :=
    List.mem_filter.mpr ⟨h2, hp2⟩
  rcases hA : ((sortDesc (concatEntries cfg)).take n).filter (hasTs t) with _ | ⟨x, _ | ⟨y, rest⟩⟩
  · rw [hA] at hmem2
    cases hmem2
  · rw [hA] at hAB hmem2
    have hx : x = e1 := by
      have := hAB
      simp at this
      exact this.1
    have he2x : e2 = x := by simpa using hmem2
    exact absurd (he2x.trans hx).symm hne
  · rw [hA] at hAB
    have : x = e1 ∧ y = e2 ∧ rest = [] := by
      rcases List.cons_eq_cons.mp hAB with ⟨hx, hrest⟩
      rcases List.cons_eq_cons.mp hrest with ⟨hy, htail⟩
      refine ⟨hx, hy, ?_⟩
      rcases List.append_eq_nil.mp htail with ⟨hr, _⟩
      exact hr
    show (aggregateEntries cfg).filter (hasTs t) = [e1, e2]
    unfold aggregateEntries
    rw [← hn, hA, this.1, this.2.1, this.2.2]

/-- A run with one Borg archive and one S3 object sharing timestamp 5. -/
def cfgTie : RunConfig :=
  { borg_repositories :=
      [{ name := "a", mountOutcome := .success, calculate_sizes := false,
          items := [{ name := "arch", isDir := true, mtime := 5, tree := .node [] [] }] }]
    s3_buckets := [{ name := "b", pages := [[{ key := "k", lastModified := 5, size := 3 }]] }] }

/-- Witness for `tie_order_preserved`: the tied Borg and S3 entries of
`cfgTie` both appear, Borg first (concatenation order). -/
theorem tie_order_preserved_witness :
    (aggregateEntries cfgTie).filter (hasTs 5) =
      [{ source := "borg:a", name := "arch", timestamp := 5, size := none,
          type := "borg_archive" : BackupEntry },
        { source := "s3:b", name := "k", timestamp := 5, size := some 3,
          type := "s3_object" : BackupEntry }] :=
  tie_order_preserved cfgTie 5 _ _ (by decide) (by decide) (by decide) (by decide)

theorem type_of_mem_borg_flatMap {e : BackupEntry} {bs : List BorgSpec} {lim : Nat}
    (h : e ∈ bs.flatMap (borgContribution lim)) : e.type = "borg_archive" := by
  rcases List.mem_flatMap.mp h with ⟨b, _, hb⟩
  unfold borgContribution at hb
  by_cases hm : b.mount
  · rw [if_pos hm] at hb
    exact type_of_mem_list_archives hb
  · rw [if_neg hm] at hb
    cases hb

theorem type_of_mem_s3_flatMap {e : BackupEntry} {ss : List S3Spec} {lim : Nat}
    (h : e ∈ ss.flatMap (fun s => list_objects s lim)) : e.type = "s3_object" := by
  rcases List.mem_flatMap.mp h with ⟨s, _, hs⟩
  exact type_of_mem_list_objects hs

/-- C10 (implicit): in the aggregated output an S3 entry never precedes a
Borg entry carrying the same timestamp: the aggregator enumerates all Borg
backends before all S3 backends and the global sort is stable, so among
equal timestamps every `borg_archive` entry comes before every `s3_object`
entry. -/
theorem borg_precedes_s3_on_equal_timestamp (cfg : RunConfig) (es eb : BackupEntry)
    (hts : es.type = "s3_object") (htb : eb.type = "borg_archive")
    (hteq : es.timestamp = eb.timestamp) :
    ¬ List.Sublist [es, eb] (aggregateEntries cfg) := by
  intro hsub
  have hsubS : List.Sublist [es, eb] (sortDesc (concatEntries cfg)) :=
    hsub.trans (List.take_sublist _ _)
  have hself : [es, eb].filter (hasTs eb.timestamp) = [es, eb] := by
    simp [hasTs, hteq]
  have hsubF : List.Sublist [es, eb]
      ((sortDesc (concatEntries cfg)).filter (hasTs eb.timestamp)) := by
    rw [← hself]
    exact hsubS.filter _
  rw [filter_timestamp_sortDesc] at hsubF
  have hsubC : List.Sublist [es, eb] (concatEntries cfg) :=
    hsubF.trans (List.filter_sublist _)
  unfold concatEntries at hsubC
  rcases List.sublist_append_iff.mp hsubC with ⟨l1, l2, heq, hl1, hl2⟩
  have hne : ("s3_object" : String) ≠ "borg_archive" := by decide
  rcases l1 with _ | ⟨x, l1t⟩
  · -- both entries sit inside the S3 part; but `eb` has the Borg type
    rw [List.nil_append] at heq
    rw [← heq] at hl2
    have hmem : eb ∈ cfg.s3_buckets.flatMap
        (fun s => list_objects s (cfg.entries_per_source.getD 10)) :=
      hl2.mem (by simp)
    have h1 := type_of_mem_s3_flatMap hmem
    rw [htb] at h1
    exact hne h1.symm
  · -- `es` sits inside the Borg part; but `es` has the S3 type
    have hx : es = x := by
      have h0 : [es, eb] = x :: (l1t ++ l2) := by simpa using heq
      exact (List.cons_eq_cons.mp h0).1
    have hmem : es ∈ cfg.borg_repositories.flatMap
        (borgContribution (cfg.entries_per_source.getD 10)) :=
      hl1.mem (by simp [hx])
    have h1 := type_of_mem_borg_flatMap hmem
    rw [hts] at h1
    exact hne h1

/-- A run with one Borg archive and one S3 object sharing timestamp 9. -/
def cfgTie2 : RunConfig :=
  { borg_repositories :=
      [{ name := "r", mountOutcome := .success, calculate_sizes := false,
          items := [{ name := "snap", isDir := true, mtime := 9, tree := .node [] [] }] }]
    s3_buckets := [{ name := "o", pages := [[{ key := "obj", lastModified := 9, size := 1 }]] }] }

/-- Witness for `borg_precedes_s3_on_equal_timestamp` at `cfgTie2`. -/
theorem borg_precedes_s3_on_equal_timestamp_witness :
    ¬ List.Sublist
      [{ source := "s3:o", name := "obj", timestamp := 9, size := some 1,
          type := "s3_object" : BackupEntry },
        { source := "borg:r", name := "snap", timestamp := 9, size := none,
          type := "borg_archive" : BackupEntry }]
      (aggregateEntries cfgTie2) :=
  borg_precedes_s3_on_equal_timestamp cfgTie2 _ _ rfl rfl rfl

/-! ## NotificationSink — `WebhookNotifier.ping` -/

/-- The exception `requests.Session.post` / `raise_for_status` can raise:
the requests library surfaces every transport failure (connection error,
timeout, bad HTTP status) as a `requests.RequestException`. -/
inductive ReqException where
  | requestException (msg : String)
deriving DecidableEq, Repr

/-- The `"healthchecks.io" in webhook or webhook.endswith("/start") or
webhook.endswith("/fail")` test (substring containment modelled through
`splitOn`: a pattern occurs in `s` iff splitting on it yields more than one
piece). -/
def isHealthcheckStyle (webhook : String) : Bool :=
  decide ((webhook.splitOn "healthchecks.io").length > 1) ||
    webhook.endsWith "/start" || webhook.endsWith "/fail"

/-- The URL one ping for `status` is posted to for one webhook
(the suffix handling of `WebhookNotifier.ping`; a webhook without the
healthchecks shape is posted to as-is, with a JSON payload). -/
def pingUrl (status webhook : String) : String :=
  if isHealthcheckStyle webhook then
    if status == "start" then
      (if webhook.endsWith "/start" then webhook else webhook ++ "/start")
    else if status == "fail" then
      (if webhook.endsWith "/fail" then webhook else webhook ++ "/fail")
    else (webhook.replace "/start" "").replace "/fail" ""
  else webhook

/-- One iteration body of the `for webhook in self.webhooks` loop, before
the `except` handler: post to the computed URL and `raise_for_status`.
`transport` gives each URL's outcome; the only failure mode is a
`ReqException`. -/
def pingBody (transport : String → Except ReqException Unit) (status webhook : String) :
    Except ReqException Bool :=
  (transport (pingUrl status webhook)).map (fun _ => true)

/-- Whether the single delivery attempt for `webhook` succeeds. -/
def attemptOutcome (transport : String → Except ReqException Unit)
    (status webhook : String) : Bool :=
  match transport (pingUrl status webhook) with
  | .ok _ => true
  | .error _ => false

/-- One full iteration of the webhook loop: the body wrapped in
`try ... except requests.RequestException`, which converts the transport
failure into a logged `false` outcome and lets the loop continue. -/
def pingStep (transport : String → Except ReqException Unit) (status : String)
    (acc : List (String × Bool)) (w : String) :
    Except ReqException (List (String × Bool)) :=
  match pingBody transport status w with
  | .ok ok => pure (acc ++ [(w, ok)])
  | .error (.requestException _) => pure (acc ++ [(w, false)])

/-- Embedding of `WebhookNotifier.ping`: the webhook loop in the exception monad.  An
exception escaping one iteration would abort the remaining iterations and
propagate out of `ping` as `.error`; the `except` clause inside `pingStep`
prevents that.  Returns the attempts in order. -/
def ping (transport : String → Except ReqException Unit) (status : String)
    (webhooks : List String) : Except ReqException (List (String × Bool)) :=
  webhooks.foldlM (pingStep transport status) []

theorem pingStep_eq (transport : String → Except ReqException Unit) (status : String)
    (acc : List (String × Bool)) (w : String) :
    pingStep transport status acc w =
      pure (acc ++ [(w, attemptOutcome transport status w)]) := by
  rcases h : transport (pingUrl status w) with e | u
  · cases e with
    | requestException m => simp [pingStep, pingBody, Except.map, h, attemptOutcome]
  · simp [pingStep, pingBody, Except.map, h, attemptOutcome]

theorem ping_foldlM_go (transport : String → Except ReqException Unit) (status : String)
    (ws : List String) :
    ∀ acc : List (String × Bool),
      ws.foldlM (pingStep transport status) acc =
        Except.ok (acc ++ ws.map (fun w => (w, attemptOutcome transport status w))) := by
  induction ws with
  | nil =>
      intro acc
      simp only [List.foldlM_nil, List.map_nil, List.append_nil]
      rfl
  | cons w ws ih =>
      intro acc
      rw [List.foldlM_cons, pingStep_eq, pure_bind, ih]
      simp

/-- C9: `ping` attempts delivery to every configured endpoint exactly once,
in order, each with its own independent outcome; a transport failure at one
endpoint does not prevent the attempts to the others, and no exception
propagates out of `ping` (the result is always `.ok`). -/
theorem ping_attempts_every_endpoint_and_never_raises
    (transport : String → Except ReqException Unit) (status : String)
    (webhooks : List String) :
    ping transport status webhooks =
      Except.ok (webhooks.map (fun w => (w, attemptOutcome transport status w))) := by
  unfold ping
  rw [ping_foldlM_go]
  simp

/-! ## ReportRenderer — `EmailReporter._generate_html_report`

The braces of the CSS block are written `\x7b`/`\x7d`; they are the literal
braces that remain after Python's `str.format` collapses the template's
doubled braces.  `strftime('%Y-%m-%d %H:%M:%S')` on an entry timestamp is
modelled by an abstract textual rendering of the instant (`formatTimestamp`);
its exact text is not load-bearing for any claim. -/

/-- Model of `entry.timestamp.strftime('%Y-%m-%d %H:%M:%S')`: a rendering that is a
function of the timestamp alone. -/
def formatTimestamp (t : Int) : String := toString t

/-- The header part of the template, up to and including the `<tbody>` open
tag, with the generation timestamp and the entry count substituted. -/
def htmlHeader (generatedOn : String) (totalEntries : Nat) : String :=
  "\n        <!DOCTYPE html>\n        <html>\n        <head>\n            <meta charset=\"utf-8\">\n            <title>Backups Report</title>\n            <style>\n                body \x7b font-family: Arial, sans-serif; margin: 20px; \x7d\n                h1 \x7b color: #333; \x7d\n                table \x7b border-collapse: collapse; width: 100%; margin-top: 20px; \x7d\n                th, td \x7b border: 1px solid #ddd; padding: 12px; text-align: left; \x7d\n                th \x7b background-color: #f2f2f2; font-weight: bold; \x7d\n                tr:nth-child(even) \x7b background-color: #f9f9f9; \x7d\n                .borg \x7b color: #0066cc; \x7d\n                .s3 \x7b color: #ff6600; \x7d\n                .timestamp \x7b font-family: monospace; \x7d\n                .size \x7b text-align: right; \x7d\n            </style>\n        </head>\n        <body>\n            <h1>Backups Report</h1>\n            <p>Generated on: "
    ++ generatedOn
    ++ "</p>\n            <p>Total entries: "
    ++ toString totalEntries
    ++ "</p>\n\n            <table>\n                <thead>\n                    <tr>\n                        <th>Source</th>\n                        <th>Name</th>\n                        <th>Timestamp (UTC)</th>\n                        <th>Size</th>\n                        <th>Type</th>\n                    </tr>\n                </thead>\n                <tbody>\n        "

/-- One `<tr>` of the report body, as appended per entry by the loop. -/
def htmlRow (e : BackupEntry) : String :=
  let source_class := if e.source.startsWith "borg:" then "borg" else "s3"
  "\n                    <tr>\n                        <td class=\""
    ++ source_class ++ "\">" ++ e.source
    ++ "</td>\n                        <td>" ++ e.name
    ++ "</td>\n                        <td class=\"timestamp\">" ++ formatTimestamp e.timestamp
    ++ "</td>\n                        <td class=\"size\">" ++ format_size e.size
    ++ "</td>\n                        <td>" ++ e.type
    ++ "</td>\n                    </tr>\n            "

/-- The closing part of the template. -/
def htmlFooter : String :=
  "\n                </tbody>\n            </table>\n        </body>\n        </html>\n        "

/-- Embedding of `EmailReporter._generate_html_report` with the clock reading it performs
(`datetime.now(timezone.utc).strftime(...)`) made an explicit argument. -/
def generate_html_report (generatedOn : String) (entries : List BackupEntry) : String :=
  htmlHeader generatedOn entries.length
    ++ String.join (entries.map htmlRow)
    ++ htmlFooter

/-- The ambient process state `_generate_html_report` executes in: the
system clock plus state it never touches (network reachability, filesystem
contents). -/
structure SystemState where
  nowUtc : String
  smtpReachable : Bool := true
  fsSnapshot : List String := []

/-- The renderer `_generate_html_report` as run inside a process state: the only part of
the ambient state it reads is the clock. -/
def renderReport (s : SystemState) (entries : List BackupEntry) : String :=
  generate_html_report s.nowUtc entries

set_option maxRecDepth 4096 in
/-- C7 counterexample: the renderer is not a pure function of the entry
sequence alone — two calls on the same (empty) entry sequence at different
clock readings produce different documents, because the document embeds the
generation timestamp. -/
theorem render_differs_across_calls_same_entries :
    generate_html_report "2024-01-01 00:00:00 UTC" [] ≠
      generate_html_report "2024-01-02 00:00:00 UTC" [] := by
  decide

/-- C7 (amended): the renderer is a pure function of the entry sequence and
the generation time: two calls with the same entries and the same clock
reading produce identical documents, and the ambient state influences the
document only through the clock (no network or filesystem effect). -/
theorem render_pure_in_entries_and_clock (s1 s2 : SystemState)
    (entries : List BackupEntry) (h : s1.nowUtc = s2.nowUtc) :
    renderReport s1 entries = renderReport s2 entries := by
  unfold renderReport
  rw [h]

/-- Witness for `render_pure_in_entries_and_clock`: states differing in
everything but the clock render identically. -/
theorem render_pure_in_entries_and_clock_witness :
    renderReport { nowUtc := "2024-01-01 00:00:00 UTC" } [] =
      renderReport
        { nowUtc := "2024-01-01 00:00:00 UTC", smtpReachable := false,
          fsSnapshot := ["changed"] } [] :=
  render_pure_in_entries_and_clock _ _ [] rfl
